import Mathlib

/- Verification of the bootstrap orchestrator (`src/entrypoint.ts` and its
compiled `dist/entrypoint.js` variant).  Effectful code is shallowly
embedded: every network- or process-facing primitive takes an *oracle*
describing the outcomes the outside world would produce (per-attempt HTTP
responses, spawn results, child exit codes) and returns a pair of a result
(`Except` mirrors thrown JS errors) and a trace of observable events
(log lines, timed delays, operation calls, HTTP requests). -/

namespace Agh

/-- HTTP endpoints contacted by the orchestrator.  In the source these are
URL strings; the mapping is: `probe p` = `GET http://127.0.0.1:p/`,
`installConfigure` = `POST .../control/install/configure`,
`login` = `POST .../control/login`,
`dhcpInterfaces` = `GET .../control/dhcp/interfaces`,
`dhcpSetConfig` = `POST .../control/dhcp/set_config`. -/
inductive Endpoint where
  | probe : Nat → Endpoint
  | installConfigure : Endpoint
  | login : Endpoint
  | dhcpInterfaces : Endpoint
  | dhcpSetConfig : Endpoint
deriving DecidableEq

/-- Observable events emitted by the orchestrator: a call of a retried
operation, a log line (`log(...)` in the source), a suspension
(`await wait(ms)`), or an HTTP request (`fetch`). -/
inductive Ev where
  | call : Ev
  | log : String → Ev
  | delay : Nat → Ev
  | request : Endpoint → Ev
deriving DecidableEq

abbrev Trace := List Ev

/-- Number of retried-operation calls in a trace. -/
def callCount (tr : Trace) : Nat :=
  tr.countP fun e => match e with | Ev.call => true | _ => false

/-- Number of HTTP requests in a trace. -/
def requestCount (tr : Trace) : Nat :=
  tr.countP fun e => match e with | Ev.request _ => true | _ => false

/-- The list of suspension durations in a trace, in order. -/
def delaysOf (tr : Trace) : List Nat :=
  tr.filterMap fun e => match e with | Ev.delay m => some m | _ => none

@[simp] theorem callCount_nil : callCount [] = 0 := rfl

@[simp] theorem callCount_cons_call (t : Trace) :
    callCount (Ev.call :: t) = callCount t + 1 := by
  simp [callCount, List.countP_cons]

@[simp] theorem callCount_cons_log (s : String) (t : Trace) :
    callCount (Ev.log s :: t) = callCount t := by
  simp [callCount, List.countP_cons]

@[simp] theorem callCount_cons_delay (m : Nat) (t : Trace) :
    callCount (Ev.delay m :: t) = callCount t := by
  simp [callCount, List.countP_cons]

@[simp] theorem callCount_cons_request (ep : Endpoint) (t : Trace) :
    callCount (Ev.request ep :: t) = callCount t := by
  simp [callCount, List.countP_cons]

@[simp] theorem callCount_append (a b : Trace) :
    callCount (a ++ b) = callCount a + callCount b := by
  simp [callCount, List.countP_append]

@[simp] theorem requestCount_nil : requestCount [] = 0 := rfl

@[simp] theorem requestCount_cons_call (t : Trace) :
    requestCount (Ev.call :: t) = requestCount t := by
  simp [requestCount, List.countP_cons]

@[simp] theorem requestCount_cons_log (s : String) (t : Trace) :
    requestCount (Ev.log s :: t) = requestCount t := by
  simp [requestCount, List.countP_cons]

@[simp] theorem requestCount_cons_delay (m : Nat) (t : Trace) :
    requestCount (Ev.delay m :: t) = requestCount t := by
  simp [requestCount, List.countP_cons]

@[simp] theorem requestCount_cons_request (ep : Endpoint) (t : Trace) :
    requestCount (Ev.request ep :: t) = requestCount t + 1 := by
  simp [requestCount, List.countP_cons]

@[simp] theorem requestCount_append (a b : Trace) :
    requestCount (a ++ b) = requestCount a + requestCount b := by
  simp [requestCount, List.countP_append]

@[simp] theorem delaysOf_nil : delaysOf [] = [] := rfl

@[simp] theorem delaysOf_cons_call (t : Trace) :
    delaysOf (Ev.call :: t) = delaysOf t := rfl

@[simp] theorem delaysOf_cons_log (s : String) (t : Trace) :
    delaysOf (Ev.log s :: t) = delaysOf t := rfl

@[simp] theorem delaysOf_cons_delay (m : Nat) (t : Trace) :
    delaysOf (Ev.delay m :: t) = m :: delaysOf t := rfl

@[simp] theorem delaysOf_cons_request (ep : Endpoint) (t : Trace) :
    delaysOf (Ev.request ep :: t) = delaysOf t := rfl

@[simp] theorem delaysOf_append (a b : Trace) :
    delaysOf (a ++ b) = delaysOf a ++ delaysOf b := by
  simp [delaysOf, List.filterMap_append]

/-- A resolved `fetch` response: HTTP status and body text. -/
structure HttpResponse where
  status : Nat
  body : String
deriving DecidableEq

/-- Predicate `response.ok` of the Fetch API: status in the range 200..299. -/
def responseOk (r : HttpResponse) : Bool :=
  decide (200 ≤ r.status ∧ r.status < 300)

/-- Readiness test of `waitForAdGuardHome`:
`response.ok || (response.status >= 400 && response.status < 500)`. -/
def probeReady (r : HttpResponse) : Bool :=
  responseOk r || decide (400 ≤ r.status ∧ r.status < 500)

/-- Whether a fetch outcome (which may be a thrown network error) counts as
a 2xx success. -/
def attemptOkStatus (o : Except String HttpResponse) : Bool :=
  match o with
  | Except.ok r => responseOk r
  | Except.error _ => false

/-- Whether a fetch outcome counts as "server answered ready" for the
availability poll. -/
def probeReadyB (o : Except String HttpResponse) : Bool :=
  match o with
  | Except.ok r => probeReady r
  | Except.error _ => false

/-- Attempt `i` of a DHCP-activation oracle failed (threw or non-2xx). -/
def dhcpFailedAt (out : Nat → Except String HttpResponse) (i : Nat) : Prop :=
  attemptOkStatus (out i) = false

/-- Attempt `i` of an availability-poll oracle failed (threw or not ready). -/
def probeFailedAt (out : Nat → Except String HttpResponse) (i : Nat) : Prop :=
  probeReadyB (out i) = false

/-- Attempt `i` of an availability-poll oracle answered ready. -/
def probeReadyAt (out : Nat → Except String HttpResponse) (i : Nat) : Prop :=
  probeReadyB (out i) = true

/-- The message of the error thrown when `withRetries` exhausts its
attempts: `` `Не удалось ${label} после ${attempts} попыток` ``. -/
def retriesMsg (label : String) (attempts : Nat) : String :=
  "Не удалось " ++ label ++ " после " ++ toString attempts ++ " попыток"

/-- The log line `withRetries` writes for a failed attempt:
`` `Попытка ${label} (${attempt}/${attempts}) не удалась: ${error}` ``. -/
def attemptFailMsg (label : String) (attempt attempts : Nat) (e : String) : String :=
  "Попытка " ++ label ++ " (" ++ toString attempt ++ "/" ++ toString attempts
    ++ ") не удалась: " ++ e

/-- The retry engine `withRetries(fn, attempts, delayMs, label)`, with the
per-attempt operation generalized to also emit trace events (the plain
engine below instantiates it with trace-free operations).  The `for`
loop over `attempt in 1..attempts` is expressed as fuel recursion; the
fuel always starts equal to `attempts` and `attempt` at 1.  Mirrors:
try `fn()`; on throw log the attempt, and `if (attempt < attempts)
await wait(delayMs)`; after the loop throw the exhaustion error. -/
def withRetriesGo (fn : Nat → Except String α × Trace) (delayMs : Nat)
    (label : String) (attempts : Nat) : Nat → Nat → Except String α × Trace
  | _, 0 => (Except.error (retriesMsg label attempts), [])
  | attempt, f+1 =>
    match fn attempt with
    | (Except.ok t, ftr) => (Except.ok t, Ev.call :: ftr)
    | (Except.error e, ftr) =>
      (((withRetriesGo fn delayMs label attempts (attempt+1) f)).1,
        Ev.call :: ftr
          ++ [Ev.log (attemptFailMsg label attempt attempts e)]
          ++ (if attempt < attempts then [Ev.delay delayMs] else [])
          ++ ((withRetriesGo fn delayMs label attempts (attempt+1) f)).2)

/-- Variant of `withRetries` over a traced operation (used by the configuration cycle,
whose operations perform `fetch` requests). -/
def withRetriesTr (fn : Nat → Except String α × Trace) (attempts delayMs : Nat)
    (label : String) : Except String α × Trace :=
  withRetriesGo fn delayMs label attempts 1 attempts

/-- Engine `withRetries(fn, attempts, delayMs, label)` from the source, for an
operation described by its per-attempt outcomes. -/
def withRetries (fn : Nat → Except String α) (attempts delayMs : Nat)
    (label : String) : Except String α × Trace :=
  withRetriesTr (fun i => (fn i, [])) attempts delayMs label

/-- Poll `waitForAdGuardHome(url, attempts, delayMs)`: the availability poll
(`for attempt in 1..attempts`): `GET url`; when the fetch resolves, log the
attempt with the status and return when `response.ok` or the status is
4xx-class; when the fetch throws, log the failure.  In both non-returning
cases an unconditional `await wait(delayMs)` ends the iteration; only
after all attempts the unavailability error is thrown.  Fuel recursion:
`attempt` starts at 1 and the fuel at `attempts`. -/
def waitForAdGuardHomeGo (ep : Endpoint) (out : Nat → Except String HttpResponse)
    (attempts delayMs : Nat) : Nat → Nat → Except String Unit × Trace
  | _, 0 =>
    (Except.error ("AdGuardHome не доступен после " ++ toString attempts ++ " попыток"), [])
  | attempt, f+1 =>
    match out attempt with
    | Except.ok resp =>
      if probeReady resp then
        (Except.ok (),
          [Ev.request ep,
           Ev.log ("Проверка доступности AdGuardHome (" ++ toString attempt ++ "/"
             ++ toString attempts ++ "): HTTP " ++ toString resp.status)])
      else
        ((waitForAdGuardHomeGo ep out attempts delayMs (attempt+1) f).1,
          [Ev.request ep,
           Ev.log ("Проверка доступности AdGuardHome (" ++ toString attempt ++ "/"
             ++ toString attempts ++ "): HTTP " ++ toString resp.status),
           Ev.delay delayMs]
            ++ (waitForAdGuardHomeGo ep out attempts delayMs (attempt+1) f).2)
    | Except.error e =>
      ((waitForAdGuardHomeGo ep out attempts delayMs (attempt+1) f).1,
        [Ev.request ep,
         Ev.log ("AdGuardHome не отвечает (" ++ toString attempt ++ "/"
           ++ toString attempts ++ "): " ++ e),
         Ev.delay delayMs]
          ++ (waitForAdGuardHomeGo ep out attempts delayMs (attempt+1) f).2)

/-- Entry point of `waitForAdGuardHome`: attempts numbered from 1. -/
def waitForAdGuardHome (ep : Endpoint) (out : Nat → Except String HttpResponse)
    (attempts delayMs : Nat) : Except String Unit × Trace :=
  waitForAdGuardHomeGo ep out attempts delayMs 1 attempts

/-- Probe `waitForAdGuardWeb(ports, attempts, delayMs)` from `dist/entrypoint.js`:
tries each candidate port in order with a full `waitForAdGuardHome` budget,
returning the first port that answers; when every candidate fails, throws
listing all the ports.  `allPorts` keeps the original list for that
message while the recursion consumes `ports`. -/
def waitForAdGuardWebGo (allPorts : List Nat)
    (outs : Nat → Nat → Except String HttpResponse) (attempts delayMs : Nat) :
    List Nat → Except String Nat × Trace
  | [] =>
    (Except.error ("AdGuardHome не доступен ни на одном из портов: "
      ++ String.intercalate ", " (allPorts.map toString)), [])
  | p :: rest =>
    match waitForAdGuardHome (Endpoint.probe p) (outs p) attempts delayMs with
    | (Except.ok _, tr) =>
      (Except.ok p, tr ++ [Ev.log ("✅ AdGuardHome отвечает на порту " ++ toString p)])
    | (Except.error e, tr) =>
      ((waitForAdGuardWebGo allPorts outs attempts delayMs rest).1,
        tr ++ [Ev.log ("⚠️  AdGuardHome не ответил на порту " ++ toString p ++ ": " ++ e)]
          ++ (waitForAdGuardWebGo allPorts outs attempts delayMs rest).2)

/-- Entry point of `waitForAdGuardWeb`. -/
def waitForAdGuardWeb (outs : Nat → Nat → Except String HttpResponse)
    (attempts delayMs : Nat) (ports : List Nat) : Except String Nat × Trace :=
  waitForAdGuardWebGo ports outs attempts delayMs ports

/-- Loop body of `enableDhcp`: `for attempt in 1..10`: log the attempt, `POST` the DHCP
payload; when the fetch resolves, log the status and body and return on
`response.ok`; when it throws, log the warning.  Every failed iteration
ends with an unconditional `await wait(3000)`; after 10 failures the
activation error is thrown. -/
def enableDhcpGo (iface : String) (out : Nat → Except String HttpResponse) :
    Nat → Nat → Except String Unit × Trace
  | _, 0 => (Except.error "DHCP не удалось включить после 10 попыток", [])
  | attempt, f+1 =>
    match out attempt with
    | Except.ok resp =>
      if responseOk resp then
        (Except.ok (),
          [Ev.log ("Попытка включить DHCP (" ++ toString attempt ++ ")..."),
           Ev.request Endpoint.dhcpSetConfig,
           Ev.log ("DHCP ответил статусом " ++ toString resp.status ++ ": " ++ resp.body),
           Ev.log ("✅ DHCP включён на " ++ iface)])
      else
        ((enableDhcpGo iface out (attempt+1) f).1,
          [Ev.log ("Попытка включить DHCP (" ++ toString attempt ++ ")..."),
           Ev.request Endpoint.dhcpSetConfig,
           Ev.log ("DHCP ответил статусом " ++ toString resp.status ++ ": " ++ resp.body),
           Ev.delay 3000]
            ++ (enableDhcpGo iface out (attempt+1) f).2)
    | Except.error e =>
      ((enableDhcpGo iface out (attempt+1) f).1,
        [Ev.log ("Попытка включить DHCP (" ++ toString attempt ++ ")..."),
         Ev.request Endpoint.dhcpSetConfig,
         Ev.log ("⚠️  DHCP не ответил: " ++ e),
         Ev.delay 3000]
          ++ (enableDhcpGo iface out (attempt+1) f).2)

/-- Entry point of `enableDhcp`: the step banner, then 10 attempts from 1. -/
def enableDhcp (iface : String) (out : Nat → Except String HttpResponse) :
    Except String Unit × Trace :=
  ((enableDhcpGo iface out 1 10).1,
    Ev.log "=== Step 6: Настройка DHCP ===" :: (enableDhcpGo iface out 1 10).2)

/-- Oracle for the endpoint outcomes used by a configuration cycle past the
port probe: the `/control/install/configure` POST per retry-attempt, the
login cookie per retry-attempt (`Option` mirrors `loginAndGetCookie`
returning a cookie or `null`), the single `/control/dhcp/interfaces` GET,
and the `/control/dhcp/set_config` POST per attempt. -/
structure CycleOracle where
  configure : Nat → Except String HttpResponse
  login : Nat → Except String (Option String)
  interfaces : Except String HttpResponse
  dhcp : Nat → Except String HttpResponse

/-- The operation retried by `withRetries` for the first-run configuration:
POST the bind payload, throw on a non-ok response with the status and
body in the message. -/
def configureFn (conf : Nat → Except String HttpResponse) (i : Nat) :
    Except String Unit × Trace :=
  match conf i with
  | Except.error e => (Except.error e, [Ev.request Endpoint.installConfigure])
  | Except.ok resp =>
    if responseOk resp then (Except.ok (), [Ev.request Endpoint.installConfigure])
    else
      (Except.error ("Не удалось выполнить базовую конфигурацию: HTTP "
        ++ toString resp.status ++ " " ++ resp.body),
       [Ev.request Endpoint.installConfigure])

/-- The operation retried by `withRetries` for authentication: call
`loginAndGetCookie` and throw when it yields no cookie. -/
def loginFn (login : Nat → Except String (Option String)) (i : Nat) :
    Except String String × Trace :=
  match login i with
  | Except.error e => (Except.error e, [Ev.request Endpoint.login])
  | Except.ok none =>
    (Except.error "Не удалось получить cookie сессии AdGuardHome", [Ev.request Endpoint.login])
  | Except.ok (some c) => (Except.ok c, [Ev.request Endpoint.login])

/-- Step `fetchDhcpInterfaces(cookie)`: log, GET `/control/dhcp/interfaces`, and
log the status and body of the response.  The fetch is NOT wrapped in a
try/catch: a thrown network error propagates to the caller. -/
def fetchDhcpInterfaces (out : Except String HttpResponse) :
    Except String Unit × Trace :=
  match out with
  | Except.error e =>
    (Except.error e, [Ev.log "Проверка интерфейсов", Ev.request Endpoint.dhcpInterfaces])
  | Except.ok resp =>
    (Except.ok (),
      [Ev.log "Проверка интерфейсов", Ev.request Endpoint.dhcpInterfaces,
       Ev.log ("Статус HTTP: " ++ toString resp.status),
       Ev.log ("Ответ DHCP интерфейсов: " ++ resp.body)])

/-- The tail of `configureAdGuardHome` shared by both source variants:
obtain the session cookie under `withRetries(.., 10, 2000, ..)`, log it,
run `fetchDhcpInterfaces`, then `enableDhcp`.  Every thrown error
short-circuits the remaining steps. -/
def configTail (c : CycleOracle) (iface : String) : Except String Unit × Trace :=
  match withRetriesTr (loginFn c.login) 10 2000 "получить cookie сессии AdGuardHome" with
  | (Except.error e, tr) => (Except.error e, tr)
  | (Except.ok cookie, tr) =>
    match fetchDhcpInterfaces c.interfaces with
    | (Except.error e, tr2) =>
      (Except.error e, tr ++ [Ev.log ("Cookie: " ++ cookie)] ++ tr2)
    | (Except.ok _, tr2) =>
      ((enableDhcp iface c.dhcp).1,
        tr ++ [Ev.log ("Cookie: " ++ cookie)] ++ tr2 ++ (enableDhcp iface c.dhcp).2)

/-- Oracle for the `src/entrypoint.ts` configuration cycle: the port-3000
availability poll plus the cycle endpoints. -/
structure AghOracle where
  web : Nat → Except String HttpResponse
  cycle : CycleOracle

/-- Cycle `configureAdGuardHome` of `src/entrypoint.ts`: step banner; poll
`http://127.0.0.1:3000` (30 attempts, 2000 ms); always run the first-run
configuration under `withRetries(.., 10, 3000, ..)`; then the shared tail. -/
def configureAdGuardHome (o : AghOracle) (iface : String) :
    Except String Unit × Trace :=
  match waitForAdGuardHome (Endpoint.probe 3000) o.web 30 2000 with
  | (Except.error e, tr) =>
    (Except.error e, Ev.log "=== Step 5: Настройка AdGuardHome ===" :: tr)
  | (Except.ok _, tr) =>
    match withRetriesTr (configureFn o.cycle.configure) 10 3000
        "выполнить базовую конфигурацию AdGuardHome" with
    | (Except.error e, tr2) =>
      (Except.error e, Ev.log "=== Step 5: Настройка AdGuardHome ===" :: (tr ++ tr2))
    | (Except.ok _, tr2) =>
      ((configTail o.cycle iface).1,
        Ev.log "=== Step 5: Настройка AdGuardHome ===" ::
          (tr ++ tr2 ++ (configTail o.cycle iface).2))

/-- Oracle for the `dist/entrypoint.js` configuration cycle: the dual-port
probe (per port, per attempt), the post-configure re-probe of port 80,
and the cycle endpoints. -/
structure DistOracle where
  web : Nat → Nat → Except String HttpResponse
  web2 : Nat → Nat → Except String HttpResponse
  cycle : CycleOracle

/-- Cycle `configureAdGuardHome` of `dist/entrypoint.js`: probe `[3000, 80]` with
`waitForAdGuardWeb(.., 30, 2000)`.  Only when the unconfigured port 3000
answered is the first-run configuration posted (then port 80 is re-probed
with a budget of 20); when port 80 answered first the configuration step
is skipped with a log line.  Both branches continue with the shared tail. -/
def configureAdGuardHomeDist (o : DistOracle) (iface : String) :
    Except String Unit × Trace :=
  match waitForAdGuardWeb o.web 30 2000 [3000, 80] with
  | (Except.error e, tr) =>
    (Except.error e, Ev.log "=== Step 5: Настройка AdGuardHome ===" :: tr)
  | (Except.ok port, tr) =>
    if port == 3000 then
      match withRetriesTr (configureFn o.cycle.configure) 10 3000
          "выполнить базовую конфигурацию AdGuardHome" with
      | (Except.error e, tr2) =>
        (Except.error e, Ev.log "=== Step 5: Настройка AdGuardHome ===" :: (tr ++ tr2))
      | (Except.ok _, tr2) =>
        match waitForAdGuardWeb o.web2 20 2000 [80] with
        | (Except.error e, tr3) =>
          (Except.error e,
            Ev.log "=== Step 5: Настройка AdGuardHome ===" :: (tr ++ tr2 ++ tr3))
        | (Except.ok _, tr3) =>
          ((configTail o.cycle iface).1,
            Ev.log "=== Step 5: Настройка AdGuardHome ===" ::
              (tr ++ tr2 ++ tr3 ++ (configTail o.cycle iface).2))
    else
      ((configTail o.cycle iface).1,
        Ev.log "=== Step 5: Настройка AdGuardHome ===" ::
          (tr ++ [Ev.log "⏭️  Базовая конфигурация пропущена: AdGuardHome уже доступен на порту 80."]
            ++ (configTail o.cycle iface).2))

/-- Outcome of `spawnSync(command, args, ..)`: `error` is set when the
process could not be spawned, `status` is the exit code (`none` models
JavaScript `null`, e.g. when the process was killed by a signal), and
`stdout` is the captured output when a pipe was attached and anything was
produced. -/
structure SpawnResult where
  error : Option String
  status : Option Int
  stdout : Option String
deriving DecidableEq

/-- Rendering `` `$ ${command} ${args.join(' ')}`.trim() ``. -/
def prettyCommand (command : String) (args : List String) : String :=
  ("$ " ++ command ++ " " ++ String.intercalate " " args).trim

/-- How JavaScript template interpolation renders `result.status`
(a number, or the string `null`). -/
def statusText (status : Option Int) : String :=
  match status with
  | none => "null"
  | some n => toString n

/-- Runner `runCommand(command, args, toleratesFailure, captureOutput)`: log the
rendered command line first, then inspect the `spawnSync` result.  A spawn
error is rethrown unless `allowFail`, in which case it is logged and
`result.stdout?.toString() ?? ''` is returned.  A non-zero (or `null`)
exit status throws unless `allowFail`, in which case it is logged.  The
captured output (or the empty string) is returned on the non-throwing
paths. -/
def runCommand (command : String) (args : List String)
    (allowFail captureOutput : Bool) (result : SpawnResult) :
    Except String String × Trace :=
  match result.error with
  | some e =>
    if allowFail then
      (Except.ok (result.stdout.getD ""),
        [Ev.log (prettyCommand command args),
         Ev.log ("⚠️  Ошибка выполнения " ++ prettyCommand command args ++ ": " ++ e)])
    else (Except.error e, [Ev.log (prettyCommand command args)])
  | none =>
    if result.status != some 0 && !allowFail then
      (Except.error ("Команда завершилась с кодом " ++ statusText result.status
        ++ ": " ++ prettyCommand command args),
       [Ev.log (prettyCommand command args)])
    else
      ((if captureOutput then Except.ok (result.stdout.getD "") else Except.ok ""),
        if result.status != some 0 then
          [Ev.log (prettyCommand command args),
           Ev.log ("⚠️  Команда завершилась с кодом " ++ statusText result.status)]
        else [Ev.log (prettyCommand command args)])

/-- Resolution `CLOUDINIT_HOSTNAME ?? 'test.xyz'`. -/
def defaultHostnameOf (env : Option String) : String :=
  env.getD "test.xyz"

/-- List `defaultCloudInitCommands` from the source: the default first-boot
self-check command list as a function of the resolved hostname. -/
def defaultCloudInitCommands (hostname : String) : List String :=
  ["echo \"AdGuardHome test VM is ready\"",
   "hostname " ++ hostname,
   "udhcpc -i eth0 -v -x hostname:" ++ hostname,
   "LEASE_IP=$(ip -4 addr show dev eth0 | awk \"/inet / \x7bprint $2\x7d\")",
   "CURRENT_HOSTNAME=$(hostname)",
   "if [ -z \"$LEASE_IP\" ]; then echo \"❌ DHCP lease for eth0 is empty\"; exit 1; fi",
   "if [ \"$CURRENT_HOSTNAME\" != \"" ++ hostname
     ++ "\" ]; then echo \"❌ Hostname is $CURRENT_HOSTNAME, expected " ++ hostname
     ++ "\"; exit 1; fi",
   "echo \"✅ DHCP lease obtained: $LEASE_IP with hostname $CURRENT_HOSTNAME\""]

/-- Splitting `CLOUDINIT_COMMANDS?.split(';').map(trim).filter(Boolean)`. -/
def splitCommandsEnv (s : String) : List String :=
  ((s.splitOn ";").map String.trim).filter (fun c => c ≠ "")

/-- The resolved `config.cloudInit.commands`: the split environment value
when the variable is present, otherwise `defaultCloudInitCommands`. -/
def cloudInitCommandsOf (env : Option String) (hostname : String) : List String :=
  match env with
  | some s => splitCommandsEnv s
  | none => defaultCloudInitCommands hostname

/-- The single command `prepareCloudInitImage` falls back to when the
configured command list is empty. -/
def fallbackCommand : String :=
  "echo \"AdGuardHome test VM is ready\""

/-- Value `commandLines` inside `prepareCloudInitImage`:
`config.cloudInit.commands.length > 0 ? commands : ['echo "..."']`. -/
def commandLinesOf (commands : List String) : List String :=
  if commands.length > 0 then commands else [fallbackCommand]

/-- Escaping `command.replace(/"/g, '\\"')`: every double quote becomes `\"`. -/
def escapeDoubleQuotes (s : String) : String :=
  String.join (s.toList.map (fun c => if c = '"' then "\\\"" else String.singleton c))

/-- One rendered `runcmd` entry: `` `  - ["/bin/sh", "-c", "${command}"]` ``
with the command quote-escaped. -/
def renderCommand (c : String) : String :=
  "  - [\"/bin/sh\", \"-c\", \"" ++ escapeDoubleQuotes c ++ "\"]"

/-- Value `renderedCommands` inside `prepareCloudInitImage`. -/
def renderedCommandsOf (commands : List String) : String :=
  String.intercalate "\n" ((commandLinesOf commands).map renderCommand)

/-- The generated `user-data` document. -/
def userDataOf (hostname password : String) (commands : List String) : String :=
  String.intercalate "\n"
    ["#cloud-config",
     "hostname: " ++ hostname,
     "password: " ++ password,
     "ssh_pwauth: true",
     "chpasswd: \x7b expire: false \x7d",
     "write_files:",
     "  - path: /etc/network/interfaces",
     "    permissions: \x270644\x27",
     "    content: |",
     "      auto lo",
     "      iface lo inet loopback",
     "      auto eth0",
     "      iface eth0 inet dhcp",
     "runcmd:",
     renderedCommandsOf commands]

/-- The failure taxonomy of the pipeline (§7 of the spec): each constructor
carries the message of the JavaScript `Error` it models. -/
inductive PipelineError where
  | spawnFailure : String → PipelineError
  | nonZeroExit : String → PipelineError
  | retriesExhausted : String → PipelineError
  | pollTimeout : String → PipelineError
  | dhcpActivationFailed : PipelineError
  | missingGuestImage : String → PipelineError
deriving DecidableEq

/-- How `String(error)` renders each pipeline failure. -/
def describeError : PipelineError → String
  | PipelineError.spawnFailure m => m
  | PipelineError.nonZeroExit m => m
  | PipelineError.retriesExhausted m => m
  | PipelineError.pollTimeout m => m
  | PipelineError.dhcpActivationFailed => "DHCP не удалось включить после 10 попыток"
  | PipelineError.missingGuestImage p => "Файл образа гостя не найден: " ++ p

/-- The state `main` leaves the process in: the hypervisor child was
spawned and the process waits on its exit event; the pipeline completed
without spawning it (QEMU disabled); or a failure was caught and the
process entered the `keepAlive` containment loop. -/
inductive MainOutcome where
  | awaitingHypervisor : MainOutcome
  | completed : MainOutcome
  | contained : MainOutcome
deriving DecidableEq

/-- Supervisor `main()`: the whole pipeline runs inside one try/catch.  Its outcome is
either `ok spawned?` (no step threw; the boolean says whether `startQemu`
spawned the hypervisor) or `error e` for the first fatal step failure.
The catch block logs the error and calls `keepAlive()`. -/
def main (pipeline : Except PipelineError Bool) : MainOutcome × Trace :=
  match pipeline with
  | Except.ok true => (MainOutcome.awaitingHypervisor, [])
  | Except.ok false => (MainOutcome.completed, [])
  | Except.error e =>
    (MainOutcome.contained,
      [Ev.log ("[!] Ошибка: " ++ describeError e ++ ". Оставляю контейнер живым."),
       Ev.log "Переходим в режим ожидания после ошибки."])

/-- One tick of the `keepAlive` interval (every 60 s): the first component
is the process exit the tick performs (`none`: it never exits), the second
the liveness line it logs. -/
def keepAliveTick (_k : Nat) : Option Int × Ev :=
  (none, Ev.log "Контейнер остаётся активным после ошибки.")

/-- The only `process.exit` call in the program: the process exits with
`code ?? 0` only from the hypervisor exit handler; the containment loop
and a completed pipeline perform no exit of the orchestrator's own. -/
def processExit : MainOutcome → Option Int → Option Int
  | MainOutcome.awaitingHypervisor, childCode => some (childCode.getD 0)
  | MainOutcome.completed, _ => none
  | MainOutcome.contained, _ => none

/-- The `qemu.on('exit', code => ...)` handler: logs `` `QEMU завершился с
кодом ${code ?? 0}` `` and calls `process.exit(code ?? 0)`; the pair is the
exit code used and the log line written. -/
def qemuExitHandler (code : Option Int) : Int × Trace :=
  (code.getD 0, [Ev.log ("QEMU завершился с кодом " ++ toString (code.getD 0))])

theorem wrGo_ok (fn : Nat → Except String α) (d : Nat) (l : String) (n a f : Nat)
    (t : α) (h : fn a = Except.ok t) :
    withRetriesGo (fun i => (fn i, [])) d l n a (f+1) = (Except.ok t, [Ev.call]) := by
  simp [withRetriesGo, h]

theorem wrGo_err (fn : Nat → Except String α) (d : Nat) (l : String) (n a f : Nat)
    (e : String) (h : fn a = Except.error e) :
    withRetriesGo (fun i => (fn i, [])) d l n a (f+1) =
      ((withRetriesGo (fun i => (fn i, [])) d l n (a+1) f).1,
        Ev.call :: Ev.log (attemptFailMsg l a n e) ::
          ((if a < n then [Ev.delay d] else [])
            ++ (withRetriesGo (fun i => (fn i, [])) d l n (a+1) f).2)) := by
  simp [withRetriesGo, h]

theorem wrGo_calls_le (fn : Nat → Except String α) (d : Nat) (l : String) (n : Nat) :
    ∀ f a, callCount (withRetriesGo (fun i => (fn i, [])) d l n a f).2 ≤ f := by
  intro f
  induction f with
  | zero => intro a; simp [withRetriesGo]
  | succ f ih =>
    intro a
    cases h : fn a with
    | ok t => rw [wrGo_ok fn d l n a f t h]; simp [callCount]
    | error e =>
      rw [wrGo_err fn d l n a f e h]
      have hc : callCount ((if a < n then [Ev.delay d] else [])
          ++ (withRetriesGo (fun i => (fn i, [])) d l n (a+1) f).2) =
          callCount (withRetriesGo (fun i => (fn i, [])) d l n (a+1) f).2 := by
        split <;> simp
      simp only [callCount_cons_log, callCount_cons_call, hc]
      have := ih (a+1)
      omega

theorem wrGo_allfail (fn : Nat → Except String α) (d : Nat) (l : String) (n : Nat) :
    ∀ f a, a + f = n + 1 →
    (∀ i, a ≤ i → i ≤ n → ∃ e, fn i = Except.error e) →
    (withRetriesGo (fun i => (fn i, [])) d l n a f).1 = Except.error (retriesMsg l n) ∧
    callCount (withRetriesGo (fun i => (fn i, [])) d l n a f).2 = f ∧
    delaysOf (withRetriesGo (fun i => (fn i, [])) d l n a f).2 = List.replicate (f - 1) d := by
  intro f
  induction f with
  | zero =>
    intro a _ _
    exact ⟨rfl, rfl, rfl⟩
  | succ f ih =>
    intro a hlen hfail
    obtain ⟨e, he⟩ := hfail a (le_refl a) (by omega)
    rw [wrGo_err fn d l n a f e he]
    rcases Nat.eq_zero_or_pos f with hf | hf
    · subst hf
      have han : ¬ a < n := by omega
      refine ⟨rfl, ?_, ?_⟩
      · simp [han, withRetriesGo]
      · simp [han, withRetriesGo]
    · have han : a < n := by omega
      obtain ⟨ih1, ih2, ih3⟩ := ih (a+1) (by omega)
        (fun i h1 h2 => hfail i (by omega) h2)
      refine ⟨ih1, ?_, ?_⟩
      · simp [han, ih2]
      · simp only [han, if_pos, delaysOf_cons_call, delaysOf_cons_log]
        rw [List.singleton_append, delaysOf_cons_delay, ih3]
        have hr : f = (f - 1) + 1 := by omega
        rw [Nat.succ_sub_one]
        conv_rhs => rw [hr]
        simp [List.replicate_succ]

theorem wrGo_firstok (fn : Nat → Except String α) (d : Nat) (l : String) (n : Nat) :
    ∀ f a k t, a + f = n + 1 → a ≤ k → k ≤ n → fn k = Except.ok t →
    (∀ i, a ≤ i → i < k → ∃ e, fn i = Except.error e) →
    (withRetriesGo (fun i => (fn i, [])) d l n a f).1 = Except.ok t ∧
    callCount (withRetriesGo (fun i => (fn i, [])) d l n a f).2 = k + 1 - a := by
  intro f
  induction f with
  | zero =>
    intro a k t hlen hak hkn _ _
    omega
  | succ f ih =>
    intro a k t hlen hak hkn hok hfail
    by_cases hka : a = k
    · subst hka
      rw [wrGo_ok fn d l n a f t hok]
      refine ⟨rfl, ?_⟩
      have hk : a + 1 - a = 1 := by omega
      rw [hk]
      simp [callCount]
    · have halt : a < k := lt_of_le_of_ne hak hka
      obtain ⟨e, he⟩ := hfail a (le_refl a) halt
      rw [wrGo_err fn d l n a f e he]
      obtain ⟨ih1, ih2⟩ := ih (a+1) k t (by omega) (by omega) hkn hok
        (fun i h1 h2 => hfail i (by omega) h2)
      refine ⟨ih1, ?_⟩
      have hc : callCount ((if a < n then [Ev.delay d] else [])
          ++ (withRetriesGo (fun i => (fn i, [])) d l n (a+1) f).2) =
          callCount (withRetriesGo (fun i => (fn i, [])) d l n (a+1) f).2 := by
        split <;> simp
      simp only [callCount_cons_log, callCount_cons_call, hc, ih2]
      omega

/-- Claim C2: `withRetries(operation, n, d, label)` with `n ≥ 1` performs at
most `n` operation calls; when every attempt throws it performs exactly
`n` calls and exactly `n-1` inter-attempt delays of `d` (no delay after
the final attempt) and signals retries-exhausted with the label; when
attempt `k` is the first to succeed it returns that attempt's result
after exactly `k` calls. -/
theorem withRetries_call_and_delay_budget (fn : Nat → Except String α)
    (n d : Nat) (label : String) (_hn : 1 ≤ n) :
    callCount (withRetries fn n d label).2 ≤ n ∧
    ((∀ i, 1 ≤ i → i ≤ n → ∃ e, fn i = Except.error e) →
      (withRetries fn n d label).1 = Except.error (retriesMsg label n) ∧
      callCount (withRetries fn n d label).2 = n ∧
      delaysOf (withRetries fn n d label).2 = List.replicate (n - 1) d) ∧
    (∀ k t, 1 ≤ k → k ≤ n → fn k = Except.ok t →
      (∀ i, 1 ≤ i → i < k → ∃ e, fn i = Except.error e) →
      (withRetries fn n d label).1 = Except.ok t ∧
      callCount (withRetries fn n d label).2 = k) := by
  refine ⟨wrGo_calls_le fn d label n n 1, ?_, ?_⟩
  · intro hfail
    exact wrGo_allfail fn d label n n 1 (by omega) hfail
  · intro k t hk1 hkn hok hfail
    obtain ⟨h1, h2⟩ := wrGo_firstok fn d label n n 1 k t (by omega) hk1 hkn hok hfail
    refine ⟨h1, ?_⟩
    show callCount (withRetriesGo (fun i => (fn i, [])) d label n 1 n).2 = k
    omega

/-- Witness for C2 at `n = 3`, `d = 5`: a totally failing operation and one
that first succeeds at attempt 2. -/
theorem withRetries_call_and_delay_budget_witness :
    callCount (withRetries (fun _ => (Except.error "boom" : Except String Nat)) 3 5 "op").2 ≤ 3 ∧
    (withRetries (fun _ => (Except.error "boom" : Except String Nat)) 3 5 "op").1 =
      Except.error (retriesMsg "op" 3) ∧
    (withRetries (fun i => if i = 2 then (Except.ok 7 : Except String Nat)
      else Except.error "boom") 3 5 "op").1 = Except.ok 7 :=
  ⟨(withRetries_call_and_delay_budget
      (fun _ => (Except.error "boom" : Except String Nat)) 3 5 "op" (by decide)).1,
   ((withRetries_call_and_delay_budget
      (fun _ => (Except.error "boom" : Except String Nat)) 3 5 "op" (by decide)).2.1
      (fun i _ _ => ⟨"boom", rfl⟩)).1,
   ((withRetries_call_and_delay_budget
      (fun i => if i = 2 then (Except.ok 7 : Except String Nat) else Except.error "boom")
      3 5 "op" (by decide)).2.2 2 7 (by decide) (by decide) rfl
      (by
        intro i h1 h2
        have hi : i = 1 := by omega
        subst hi
        exact ⟨"boom", rfl⟩)).1⟩

theorem dhcpGo_ok2xx (iface : String) (out : Nat → Except String HttpResponse)
    (a f : Nat) (r : HttpResponse) (h : out a = Except.ok r)
    (hok : responseOk r = true) :
    enableDhcpGo iface out a (f+1) =
      (Except.ok (),
        [Ev.log ("Попытка включить DHCP (" ++ toString a ++ ")..."),
         Ev.request Endpoint.dhcpSetConfig,
         Ev.log ("DHCP ответил статусом " ++ toString r.status ++ ": " ++ r.body),
         Ev.log ("✅ DHCP включён на " ++ iface)]) := by
  simp [enableDhcpGo, h, hok]

theorem dhcpGo_fail (iface : String) (out : Nat → Except String HttpResponse)
    (a f : Nat) (hfail : attemptOkStatus (out a) = false) :
    (enableDhcpGo iface out a (f+1)).1 = (enableDhcpGo iface out (a+1) f).1 ∧
    requestCount (enableDhcpGo iface out a (f+1)).2 =
      requestCount (enableDhcpGo iface out (a+1) f).2 + 1 ∧
    delaysOf (enableDhcpGo iface out a (f+1)).2 =
      3000 :: delaysOf (enableDhcpGo iface out (a+1) f).2 ∧
    ∀ e, e ∈ (enableDhcpGo iface out (a+1) f).2 → e ∈ (enableDhcpGo iface out a (f+1)).2 := by
  cases h : out a with
  | error e =>
    refine ⟨by simp [enableDhcpGo, h], by simp [enableDhcpGo, h],
      by simp [enableDhcpGo, h], ?_⟩
    intro x hx
    simp only [enableDhcpGo, h]
    simp
    tauto
  | ok r =>
    have hr : responseOk r = false := by
      have := hfail
      simp [attemptOkStatus, h] at this
      exact this
    refine ⟨by simp [enableDhcpGo, h, hr], by simp [enableDhcpGo, h, hr],
      by simp [enableDhcpGo, h, hr], ?_⟩
    intro x hx
    simp only [enableDhcpGo, h, hr]
    simp
    tauto

theorem dhcpGo_allfail (iface : String) (out : Nat → Except String HttpResponse) :
    ∀ f a, (∀ i, a ≤ i → i < a + f → dhcpFailedAt out i) →
    (enableDhcpGo iface out a f).1 = Except.error "DHCP не удалось включить после 10 попыток" ∧
    requestCount (enableDhcpGo iface out a f).2 = f ∧
    delaysOf (enableDhcpGo iface out a f).2 = List.replicate f 3000 := by
  intro f
  induction f with
  | zero => intro a _; exact ⟨rfl, rfl, rfl⟩
  | succ f ih =>
    intro a hfail
    obtain ⟨h1, h2, h3, _⟩ := dhcpGo_fail iface out a f (hfail a (le_refl a) (by omega))
    obtain ⟨ih1, ih2, ih3⟩ := ih (a+1) (fun i hi1 hi2 => hfail i (by omega) (by omega))
    refine ⟨h1.trans ih1, ?_, ?_⟩
    · rw [h2, ih2]
    · rw [h3, ih3]
      simp [List.replicate_succ]

theorem dhcpGo_firstok (iface : String) (out : Nat → Except String HttpResponse) :
    ∀ f a k r, a ≤ k → k < a + f → out k = Except.ok r → responseOk r = true →
    (∀ i, a ≤ i → i < k → dhcpFailedAt out i) →
    (enableDhcpGo iface out a f).1 = Except.ok () ∧
    requestCount (enableDhcpGo iface out a f).2 = k + 1 - a ∧
    delaysOf (enableDhcpGo iface out a f).2 = List.replicate (k - a) 3000 ∧
    Ev.log ("DHCP ответил статусом " ++ toString r.status ++ ": " ++ r.body)
      ∈ (enableDhcpGo iface out a f).2 := by
  intro f
  induction f with
  | zero => intro a k r hak hkf _ _ _; omega
  | succ f ih =>
    intro a k r hak hkf hok hr hfail
    by_cases hka : a = k
    · subst hka
      rw [dhcpGo_ok2xx iface out a f r hok hr]
      refine ⟨rfl, ?_, ?_, ?_⟩
      · have hone : a + 1 - a = 1 := by omega
        rw [hone]; simp
      · have hz : a - a = 0 := by omega
        rw [hz]; simp
      · simp
    · have halt : a < k := lt_of_le_of_ne hak hka
      obtain ⟨h1, h2, h3, h4⟩ := dhcpGo_fail iface out a f (hfail a (le_refl a) halt)
      obtain ⟨ih1, ih2, ih3, ih4⟩ := ih (a+1) k r (by omega) (by omega) hok hr
        (fun i hi1 hi2 => hfail i (by omega) hi2)
      refine ⟨h1.trans ih1, ?_, ?_, h4 _ ih4⟩
      · rw [h2, ih2]; omega
      · rw [h3, ih3]
        have hs : k - a = (k - (a+1)) + 1 := by omega
        rw [hs]
        simp [List.replicate_succ]

/-- Claim C3: `enableDhcp` posts the DHCP payload at most 10 times; on total
failure it posts exactly 10 times and signals the activation error only
then; when attempt `k ≤ 10` is the first to return 2xx it succeeds after
exactly `k` posts with a fixed 3000 ms spacing between consecutive
attempts, logging that attempt's status and body. -/
theorem enableDhcp_attempt_policy (iface : String)
    (out : Nat → Except String HttpResponse) :
    ((∀ i, 1 ≤ i → i ≤ 10 → dhcpFailedAt out i) →
      (enableDhcp iface out).1 = Except.error "DHCP не удалось включить после 10 попыток" ∧
      requestCount (enableDhcp iface out).2 = 10) ∧
    (∀ k r, 1 ≤ k → k ≤ 10 → out k = Except.ok r → responseOk r = true →
      (∀ i, 1 ≤ i → i < k → dhcpFailedAt out i) →
      (enableDhcp iface out).1 = Except.ok () ∧
      requestCount (enableDhcp iface out).2 = k ∧
      delaysOf (enableDhcp iface out).2 = List.replicate (k - 1) 3000 ∧
      Ev.log ("DHCP ответил статусом " ++ toString r.status ++ ": " ++ r.body)
        ∈ (enableDhcp iface out).2) := by
  constructor
  · intro hfail
    obtain ⟨h1, h2, _⟩ := dhcpGo_allfail iface out 10 1
      (fun i hi1 hi2 => hfail i hi1 (by omega))
    refine ⟨h1, ?_⟩
    simp [enableDhcp, h2]
  · intro k r hk1 hk10 hok hr hfail
    obtain ⟨h1, h2, h3, h4⟩ := dhcpGo_firstok iface out 10 1 k r hk1 (by omega) hok hr hfail
    refine ⟨h1, ?_, ?_, ?_⟩
    · simp [enableDhcp, h2]
    · simp [enableDhcp, h3]
    · simp [enableDhcp]
      exact Or.inr h4

/-- Witness for C3: total failure with status 500 everywhere, and success
at the third attempt after two network errors. -/
theorem enableDhcp_attempt_policy_witness :
    (enableDhcp "br0" (fun _ => Except.ok ⟨500, "err"⟩)).1 =
      Except.error "DHCP не удалось включить после 10 попыток" ∧
    (enableDhcp "br0" (fun i => if i = 3 then Except.ok ⟨200, "ok"⟩
      else Except.error "fetch failed")).1 = Except.ok () ∧
    delaysOf (enableDhcp "br0" (fun i => if i = 3 then Except.ok ⟨200, "ok"⟩
      else Except.error "fetch failed")).2 = List.replicate 2 3000 :=
  ⟨((enableDhcp_attempt_policy "br0" (fun _ => Except.ok ⟨500, "err"⟩)).1
      (fun i _ _ => by simp [dhcpFailedAt, attemptOkStatus, responseOk])).1,
   ((enableDhcp_attempt_policy "br0" (fun i => if i = 3 then Except.ok ⟨200, "ok"⟩
      else Except.error "fetch failed")).2 3 ⟨200, "ok"⟩ (by decide) (by decide)
      rfl (by decide)
      (by
        intro i h1 h2
        have : i = 1 ∨ i = 2 := by omega
        rcases this with h | h <;> subst h <;>
          simp [dhcpFailedAt, attemptOkStatus])).1,
   ((enableDhcp_attempt_policy "br0" (fun i => if i = 3 then Except.ok ⟨200, "ok"⟩
      else Except.error "fetch failed")).2 3 ⟨200, "ok"⟩ (by decide) (by decide)
      rfl (by decide)
      (by
        intro i h1 h2
        have : i = 1 ∨ i = 2 := by omega
        rcases this with h | h <;> subst h <;>
          simp [dhcpFailedAt, attemptOkStatus])).2.2.1⟩

theorem wfaghGo_ready (ep : Endpoint) (out : Nat → Except String HttpResponse)
    (n d a f : Nat) (r : HttpResponse) (h : out a = Except.ok r)
    (hr : probeReady r = true) :
    waitForAdGuardHomeGo ep out n d a (f+1) =
      (Except.ok (),
        [Ev.request ep,
         Ev.log ("Проверка доступности AdGuardHome (" ++ toString a ++ "/"
           ++ toString n ++ "): HTTP " ++ toString r.status)]) := by
  simp [waitForAdGuardHomeGo, h, hr]

theorem wfaghGo_fail (ep : Endpoint) (out : Nat → Except String HttpResponse)
    (n d a f : Nat) (hfail : probeReadyB (out a) = false) :
    (waitForAdGuardHomeGo ep out n d a (f+1)).1 =
      (waitForAdGuardHomeGo ep out n d (a+1) f).1 ∧
    delaysOf (waitForAdGuardHomeGo ep out n d a (f+1)).2 =
      d :: delaysOf (waitForAdGuardHomeGo ep out n d (a+1) f).2 := by
  cases h : out a with
  | error e =>
    exact ⟨by simp [waitForAdGuardHomeGo, h], by simp [waitForAdGuardHomeGo, h]⟩
  | ok r =>
    have hr : probeReady r = false := by
      have := hfail
      simp [probeReadyB, h] at this
      exact this
    exact ⟨by simp [waitForAdGuardHomeGo, h, hr], by simp [waitForAdGuardHomeGo, h, hr]⟩

theorem wfaghGo_allfail (ep : Endpoint) (out : Nat → Except String HttpResponse)
    (n d : Nat) :
    ∀ f a, (∀ i, a ≤ i → i < a + f → probeFailedAt out i) →
    (waitForAdGuardHomeGo ep out n d a f).1 =
      Except.error ("AdGuardHome не доступен после " ++ toString n ++ " попыток") ∧
    delaysOf (waitForAdGuardHomeGo ep out n d a f).2 = List.replicate f d := by
  intro f
  induction f with
  | zero => intro a _; exact ⟨rfl, rfl⟩
  | succ f ih =>
    intro a hfail
    obtain ⟨h1, h2⟩ := wfaghGo_fail ep out n d a f (hfail a (le_refl a) (by omega))
    obtain ⟨ih1, ih2⟩ := ih (a+1) (fun i hi1 hi2 => hfail i (by omega) (by omega))
    refine ⟨h1.trans ih1, ?_⟩
    rw [h2, ih2]
    simp [List.replicate_succ]

theorem wfaghGo_exists_ready (ep : Endpoint) (out : Nat → Except String HttpResponse)
    (n d : Nat) :
    ∀ f a, (∃ k, a ≤ k ∧ k < a + f ∧ probeReadyAt out k) →
    (waitForAdGuardHomeGo ep out n d a f).1 = Except.ok () := by
  intro f
  induction f with
  | zero =>
    intro a ⟨k, hk1, hk2, _⟩
    omega
  | succ f ih =>
    intro a ⟨k, hk1, hk2, hk3⟩
    by_cases hready : probeReadyB (out a) = true
    · cases h : out a with
      | error e => simp [probeReadyB, h] at hready
      | ok r =>
        have hr : probeReady r = true := by
          have := hready
          simp [probeReadyB, h] at this
          exact this
        rw [wfaghGo_ready ep out n d a f r h hr]
    · have hfail : probeReadyB (out a) = false := by
        cases hb : probeReadyB (out a)
        · rfl
        · exact absurd hb hready
      have hka : a ≠ k := by
        intro heq
        subst heq
        exact hready hk3
      obtain ⟨h1, _⟩ := wfaghGo_fail ep out n d a f hfail
      rw [h1]
      exact ih (a+1) ⟨k, by omega, by omega, hk3⟩

theorem wfaghGo_events (ep : Endpoint) (out : Nat → Except String HttpResponse)
    (n d : Nat) (P : Ev → Prop) (hreq : P (Ev.request ep))
    (hlog : ∀ s, P (Ev.log s)) (hdel : P (Ev.delay d)) :
    ∀ f a e, e ∈ (waitForAdGuardHomeGo ep out n d a f).2 → P e := by
  intro f
  induction f with
  | zero => intro a e he; simp [waitForAdGuardHomeGo] at he
  | succ f ih =>
    intro a e he
    cases h : out a with
    | error msg =>
      simp only [waitForAdGuardHomeGo, h] at he
      simp at he
      rcases he with h1 | h1 | h1 | h1
      · subst h1; exact hreq
      · subst h1; exact hlog _
      · subst h1; exact hdel
      · exact ih (a+1) e h1
    | ok r =>
      cases hr : probeReady r with
      | true =>
        rw [wfaghGo_ready ep out n d a f r h hr] at he
        simp at he
        rcases he with h1 | h1
        · subst h1; exact hreq
        · subst h1; exact hlog _
      | false =>
        simp only [waitForAdGuardHomeGo, h, hr] at he
        simp at he
        rcases he with h1 | h1 | h1 | h1
        · subst h1; exact hreq
        · subst h1; exact hlog _
        · subst h1; exact hdel
        · exact ih (a+1) e h1

/-- Claim C9: unlike `withRetries`, both polling loops suspend after every
failed attempt including the final one: `waitForAdGuardHome` with `n`
attempts on total failure performs exactly `n` delays of `d` before
signaling unavailability, and `enableDhcp` on total failure performs
exactly 10 delays of 3000 ms — one after its 10th failed attempt — before
raising the activation error. -/
theorem poll_loops_delay_after_last_attempt (ep : Endpoint)
    (out out2 : Nat → Except String HttpResponse) (n d : Nat) (iface : String) :
    ((∀ i, 1 ≤ i → i ≤ n → probeFailedAt out i) →
      (waitForAdGuardHome ep out n d).1 =
        Except.error ("AdGuardHome не доступен после " ++ toString n ++ " попыток") ∧
      delaysOf (waitForAdGuardHome ep out n d).2 = List.replicate n d) ∧
    ((∀ i, 1 ≤ i → i ≤ 10 → dhcpFailedAt out2 i) →
      (enableDhcp iface out2).1 = Except.error "DHCP не удалось включить после 10 попыток" ∧
      delaysOf (enableDhcp iface out2).2 = List.replicate 10 3000) := by
  constructor
  · intro hfail
    exact wfaghGo_allfail ep out n d n 1 (fun i hi1 hi2 => hfail i hi1 (by omega))
  · intro hfail
    obtain ⟨h1, _, h3⟩ := dhcpGo_allfail iface out2 10 1
      (fun i hi1 hi2 => hfail i hi1 (by omega))
    refine ⟨h1, ?_⟩
    simp [enableDhcp, h3]

/-- Witness for C9: a probe that always throws, `n = 2`, `d = 7`, and a
DHCP oracle that always throws. -/
theorem poll_loops_delay_after_last_attempt_witness :
    delaysOf (waitForAdGuardHome (Endpoint.probe 3000)
      (fun _ => Except.error "down") 2 7).2 = List.replicate 2 7 ∧
    delaysOf (enableDhcp "br0" (fun _ => Except.error "down")).2 =
      List.replicate 10 3000 :=
  ⟨((poll_loops_delay_after_last_attempt (Endpoint.probe 3000)
      (fun _ => Except.error "down") (fun _ => Except.error "down") 2 7 "br0").1
      (fun i _ _ => by simp [probeFailedAt, probeReadyB])).2,
   ((poll_loops_delay_after_last_attempt (Endpoint.probe 3000)
      (fun _ => Except.error "down") (fun _ => Except.error "down") 2 7 "br0").2
      (fun i _ _ => by simp [dhcpFailedAt, attemptOkStatus])).2⟩

theorem webGo_cons_fst (allPorts : List Nat)
    (outs : Nat → Nat → Except String HttpResponse) (n d p : Nat)
    (rest : List Nat) :
    (waitForAdGuardWebGo allPorts outs n d (p :: rest)).1 =
      match (waitForAdGuardHome (Endpoint.probe p) (outs p) n d).1 with
      | Except.ok _ => Except.ok p
      | Except.error _ => (waitForAdGuardWebGo allPorts outs n d rest).1 := by
  rcases h : waitForAdGuardHome (Endpoint.probe p) (outs p) n d with ⟨r, tr⟩
  cases r with
  | ok u => simp [waitForAdGuardWebGo, h]
  | error e => simp [waitForAdGuardWebGo, h]

theorem webGo_events (allPorts : List Nat)
    (outs : Nat → Nat → Except String HttpResponse) (n d : Nat) (P : Ev → Prop)
    (hreq : ∀ p, P (Ev.request (Endpoint.probe p)))
    (hlog : ∀ s, P (Ev.log s)) (hdel : P (Ev.delay d)) :
    ∀ ports e, e ∈ (waitForAdGuardWebGo allPorts outs n d ports).2 → P e := by
  intro ports
  induction ports with
  | nil => intro e he; simp [waitForAdGuardWebGo] at he
  | cons p rest ih =>
    intro e he
    rcases h : waitForAdGuardHome (Endpoint.probe p) (outs p) n d with ⟨r, tr⟩
    have htr : ∀ x, x ∈ tr → P x := by
      intro x hx
      have : x ∈ (waitForAdGuardHome (Endpoint.probe p) (outs p) n d).2 := by
        rw [h]
        exact hx
      exact wfaghGo_events (Endpoint.probe p) (outs p) n d P (hreq p) hlog hdel n 1 x this
    cases r with
    | ok u =>
      simp only [waitForAdGuardWebGo, h] at he
      simp at he
      rcases he with h1 | h1
      · exact htr e h1
      · subst h1; exact hlog _
    | error msg =>
      simp only [waitForAdGuardWebGo, h] at he
      simp at he
      rcases he with h1 | h1 | h1
      · exact htr e h1
      · subst h1; exact hlog _
      · exact ih e h1

theorem wrGoTr_events (fn : Nat → Except String α × Trace) (d : Nat) (l : String)
    (n : Nat) (P : Ev → Prop) (hcall : P Ev.call) (hlog : ∀ s, P (Ev.log s))
    (hdel : P (Ev.delay d)) (hfn : ∀ i e, e ∈ (fn i).2 → P e) :
    ∀ f a e, e ∈ (withRetriesGo fn d l n a f).2 → P e := by
  intro f
  induction f with
  | zero => intro a e he; simp [withRetriesGo] at he
  | succ f ih =>
    intro a e he
    rcases hfa : fn a with ⟨res, ftr⟩
    have hftr : ∀ x, x ∈ ftr → P x := by
      intro x hx
      apply hfn a
      rw [hfa]
      exact hx
    cases res with
    | ok t =>
      simp only [withRetriesGo, hfa] at he
      simp at he
      rcases he with h1 | h1
      · subst h1; exact hcall
      · exact hftr e h1
    | error msg =>
      simp only [withRetriesGo, hfa] at he
      simp at he
      rcases he with h1 | h1 | h1 | h1 | h1
      · subst h1; exact hcall
      · exact hftr e h1
      · subst h1; exact hlog _
      · rcases h1 with ⟨_, h2⟩
        subst h2; exact hdel
      · exact ih (a+1) e h1

theorem fetchDhcpInterfaces_events (out : Except String HttpResponse)
    (P : Ev → Prop) (hlog : ∀ s, P (Ev.log s))
    (hreq : P (Ev.request Endpoint.dhcpInterfaces)) :
    ∀ e, e ∈ (fetchDhcpInterfaces out).2 → P e := by
  intro e he
  cases out with
  | error msg =>
    simp [fetchDhcpInterfaces] at he
    rcases he with h1 | h1
    · subst h1; exact hlog _
    · subst h1; exact hreq
  | ok r =>
    simp [fetchDhcpInterfaces] at he
    rcases he with h1 | h1 | h1 | h1
    · subst h1; exact hlog _
    · subst h1; exact hreq
    · subst h1; exact hlog _
    · subst h1; exact hlog _

theorem dhcpGo_events (iface : String) (out : Nat → Except String HttpResponse)
    (P : Ev → Prop) (hlog : ∀ s, P (Ev.log s)) (hdel : P (Ev.delay 3000))
    (hreq : P (Ev.request Endpoint.dhcpSetConfig)) :
    ∀ f a e, e ∈ (enableDhcpGo iface out a f).2 → P e := by
  intro f
  induction f with
  | zero => intro a e he; simp [enableDhcpGo] at he
  | succ f ih =>
    intro a e he
    cases h : out a with
    | error msg =>
      simp only [enableDhcpGo, h] at he
      simp at he
      rcases he with h1 | h1 | h1 | h1 | h1
      · subst h1; exact hlog _
      · subst h1; exact hreq
      · subst h1; exact hlog _
      · subst h1; exact hdel
      · exact ih (a+1) e h1
    | ok r =>
      cases hr : responseOk r with
      | true =>
        rw [dhcpGo_ok2xx iface out a f r h hr] at he
        simp at he
        rcases he with h1 | h1 | h1 | h1
        · subst h1; exact hlog _
        · subst h1; exact hreq
        · subst h1; exact hlog _
        · subst h1; exact hlog _
      | false =>
        simp only [enableDhcpGo, h, hr] at he
        simp at he
        rcases he with h1 | h1 | h1 | h1 | h1
        · subst h1; exact hlog _
        · subst h1; exact hreq
        · subst h1; exact hlog _
        · subst h1; exact hdel
        · exact ih (a+1) e h1

theorem configTail_events (c : CycleOracle) (iface : String) (P : Ev → Prop)
    (hcall : P Ev.call) (hlog : ∀ s, P (Ev.log s))
    (hdel2000 : P (Ev.delay 2000)) (hdel3000 : P (Ev.delay 3000))
    (hlo : P (Ev.request Endpoint.login))
    (hif : P (Ev.request Endpoint.dhcpInterfaces))
    (hdh : P (Ev.request Endpoint.dhcpSetConfig)) :
    ∀ e, e ∈ (configTail c iface).2 → P e := by
  intro e he
  have hlogin : ∀ x, x ∈ (withRetriesTr (loginFn c.login) 10 2000
      "получить cookie сессии AdGuardHome").2 → P x := by
    intro x hx
    refine wrGoTr_events (loginFn c.login) 2000 _ 10 P hcall hlog hdel2000 ?_ 10 1 x hx
    intro i y hy
    cases hc : c.login i with
    | error m => simp [loginFn, hc] at hy; subst hy; exact hlo
    | ok v =>
      cases v with
      | none => simp [loginFn, hc] at hy; subst hy; exact hlo
      | some s => simp [loginFn, hc] at hy; subst hy; exact hlo
  rcases hL : withRetriesTr (loginFn c.login) 10 2000
      "получить cookie сессии AdGuardHome" with ⟨res, tr⟩
  have htr : ∀ x, x ∈ tr → P x := by
    intro x hx
    apply hlogin
    rw [hL]
    exact hx
  cases res with
  | error msg =>
    simp only [configTail, hL] at he
    exact htr e he
  | ok cookie =>
    rcases hI : fetchDhcpInterfaces c.interfaces with ⟨ires, itr⟩
    have hitr : ∀ x, x ∈ itr → P x := by
      intro x hx
      refine fetchDhcpInterfaces_events c.interfaces P hlog hif x ?_
      rw [hI]
      exact hx
    cases ires with
    | error msg =>
      simp only [configTail, hL, hI] at he
      simp at he
      rcases he with h1 | h1 | h1
      · exact htr e h1
      · subst h1; exact hlog _
      · exact hitr e h1
    | ok u =>
      simp only [configTail, hL, hI] at he
      simp at he
      rcases he with h1 | h1 | h1 | h1
      · exact htr e h1
      · subst h1; exact hlog _
      · exact hitr e h1
      · simp only [enableDhcp] at h1
        simp at h1
        rcases h1 with h2 | h2
        · subst h2; exact hlog _
        · exact dhcpGo_events iface c.dhcp P hlog hdel3000 hdh 10 1 e h2

/-- Claim C4: when port 3000 never answers within its 30-attempt budget and
port 80 answers within its budget, the dual-port probe of the compiled
variant returns 80, and in that case the configuration cycle never issues
the first-run configuration request `POST /control/install/configure`. -/
theorem port_probe_skips_first_run_configure (o : DistOracle) (iface : String)
    (h3000 : ∀ i, 1 ≤ i → i ≤ 30 → probeFailedAt (o.web 3000) i)
    (h80 : ∃ k, 1 ≤ k ∧ k ≤ 30 ∧ probeReadyAt (o.web 80) k) :
    (waitForAdGuardWeb o.web 30 2000 [3000, 80]).1 = Except.ok 80 ∧
    Ev.request Endpoint.installConfigure ∉ (configureAdGuardHomeDist o iface).2 := by
  have hp3 : (waitForAdGuardHome (Endpoint.probe 3000) (o.web 3000) 30 2000).1 =
      Except.error ("AdGuardHome не доступен после " ++ toString 30 ++ " попыток") :=
    (wfaghGo_allfail (Endpoint.probe 3000) (o.web 3000) 30 2000 30 1
      (fun i hi1 hi2 => h3000 i hi1 (by omega))).1
  have hp8 : (waitForAdGuardHome (Endpoint.probe 80) (o.web 80) 30 2000).1 =
      Except.ok () := by
    obtain ⟨k, hk1, hk2, hk3⟩ := h80
    exact wfaghGo_exists_ready (Endpoint.probe 80) (o.web 80) 30 2000 30 1
      ⟨k, hk1, by omega, hk3⟩
  have hweb : (waitForAdGuardWeb o.web 30 2000 [3000, 80]).1 = Except.ok 80 := by
    show (waitForAdGuardWebGo [3000, 80] o.web 30 2000 [3000, 80]).1 = Except.ok 80
    rw [webGo_cons_fst [3000, 80] o.web 30 2000 3000 [80], hp3]
    rw [webGo_cons_fst [3000, 80] o.web 30 2000 80 [], hp8]
  refine ⟨hweb, ?_⟩
  have hPall : ∀ e, e ∈ (configureAdGuardHomeDist o iface).2 →
      e ≠ Ev.request Endpoint.installConfigure := by
    rcases hW : waitForAdGuardWeb o.web 30 2000 [3000, 80] with ⟨wres, wtr⟩
    have hres : wres = Except.ok 80 := by
      have := hweb
      rw [hW] at this
      exact this
    subst hres
    have hwtr : ∀ x, x ∈ wtr → x ≠ Ev.request Endpoint.installConfigure := by
      intro x hx
      refine webGo_events [3000, 80] o.web 30 2000
        (fun e => e ≠ Ev.request Endpoint.installConfigure)
        (fun p => by simp) (fun s => by simp) (by simp) [3000, 80] x ?_
      show x ∈ (waitForAdGuardWebGo [3000, 80] o.web 30 2000 [3000, 80]).2
      rw [show waitForAdGuardWebGo [3000, 80] o.web 30 2000 [3000, 80]
        = waitForAdGuardWeb o.web 30 2000 [3000, 80] from rfl, hW]
      exact hx
    intro e he
    simp only [configureAdGuardHomeDist, hW] at he
    simp at he
    rcases he with h1 | h1 | h1 | h1
    · subst h1; simp
    · exact hwtr e h1
    · subst h1; simp
    · exact configTail_events o.cycle iface
        (fun e => e ≠ Ev.request Endpoint.installConfigure)
        (by simp) (fun s => by simp) (by simp) (by simp) (by simp) (by simp) (by simp) e h1
  intro hmem
  exact hPall _ hmem rfl

/-- Witness for C4: port 3000 always answers 502 (not ready), port 80
answers 200 at the first attempt. -/
theorem port_probe_skips_first_run_configure_witness :
    (waitForAdGuardWeb
      (fun p _ => if p = 80 then Except.ok ⟨200, ""⟩ else Except.ok ⟨502, "bad gateway"⟩)
      30 2000 [3000, 80]).1 = Except.ok 80 :=
  (port_probe_skips_first_run_configure
    { web := fun p _ => if p = 80 then Except.ok ⟨200, ""⟩
        else Except.ok ⟨502, "bad gateway"⟩,
      web2 := fun _ _ => Except.ok ⟨200, ""⟩,
      cycle :=
        { configure := fun _ => Except.ok ⟨200, ""⟩,
          login := fun _ => Except.ok (some "agh_session=x"),
          interfaces := Except.ok ⟨200, "[]"⟩,
          dhcp := fun _ => Except.ok ⟨200, ""⟩ } } "br0"
    (fun i _ _ => by simp [probeFailedAt, probeReadyB, probeReady, responseOk])
    ⟨1, by decide, by decide,
      by simp [probeReadyAt, probeReadyB, probeReady, responseOk]⟩).1

theorem wrTrGo_firstOk (fn : Nat → Except String α × Trace) (d : Nat) (l : String)
    (n a f : Nat) (t : α) (ftr : Trace) (h : fn a = (Except.ok t, ftr)) :
    withRetriesGo fn d l n a (f+1) = (Except.ok t, Ev.call :: ftr) := by
  simp [withRetriesGo, h]

theorem withRetriesTr_firstOk (fn : Nat → Except String α × Trace) (n d : Nat)
    (l : String) (t : α) (ftr : Trace) (hn : 1 ≤ n)
    (h : fn 1 = (Except.ok t, ftr)) :
    withRetriesTr fn n d l = (Except.ok t, Ev.call :: ftr) := by
  cases n with
  | zero => omega
  | succ m =>
    show withRetriesGo fn d l (m+1) 1 (m+1) = (Except.ok t, Ev.call :: ftr)
    exact wrTrGo_firstOk fn d l (m+1) 1 m t ftr h

theorem enableDhcp_first_request (iface : String)
    (out : Nat → Except String HttpResponse) :
    Ev.request Endpoint.dhcpSetConfig ∈ (enableDhcp iface out).2 := by
  have hmem : Ev.request Endpoint.dhcpSetConfig ∈ (enableDhcpGo iface out 1 (9+1)).2 := by
    cases h : out 1 with
    | error e => simp [enableDhcpGo, h]
    | ok r =>
      cases hr : responseOk r with
      | true => rw [dhcpGo_ok2xx iface out 1 9 r h hr]; simp
      | false => simp [enableDhcpGo, h, hr]
  simp only [enableDhcp]
  simp only [List.mem_cons]
  exact Or.inr hmem

/-- A run in which the control plane answers every call with HTTP 200 but
the `GET /control/dhcp/interfaces` fetch throws a network error. -/
def readInterfacesErrorOracle : AghOracle :=
  { web := fun _ => Except.ok ⟨200, ""⟩,
    cycle :=
      { configure := fun _ => Except.ok ⟨200, "ok"⟩,
        login := fun _ => Except.ok (some "agh_session=x"),
        interfaces := Except.error "TypeError: fetch failed",
        dhcp := fun _ => Except.ok ⟨200, ""⟩ } }

/-- Counterexample to C8: a network error thrown by the READ_INTERFACES
fetch is NOT non-fatal — it propagates out of the configuration cycle and
the DHCP-activation step is never reached (no `set_config` POST occurs). -/
theorem read_interfaces_network_error_counterexample :
    (configureAdGuardHome readInterfacesErrorOracle "br0").1 =
      Except.error "TypeError: fetch failed" ∧
    Ev.request Endpoint.dhcpSetConfig ∉
      (configureAdGuardHome readInterfacesErrorOracle "br0").2 := by
  constructor
  · rfl
  · decide

/-- Claim C8 (amended): for every HTTP status returned by the
READ_INTERFACES GET, the step only logs the status and body and the cycle
proceeds to the DHCP-activation step; but a thrown network error in that
GET propagates out of the cycle (the DHCP step is not reached) and is
handled by the top-level supervisor. -/
theorem read_interfaces_nonfatal_amended (c : CycleOracle) (iface cookie : String)
    (hlogin : c.login 1 = Except.ok (some cookie)) :
    (∀ status body, c.interfaces = Except.ok ⟨status, body⟩ →
      Ev.request Endpoint.dhcpSetConfig ∈ (configTail c iface).2 ∧
      Ev.log ("Статус HTTP: " ++ toString status) ∈ (configTail c iface).2 ∧
      (configTail c iface).1 = (enableDhcp iface c.dhcp).1) ∧
    (∀ e, c.interfaces = Except.error e →
      (configTail c iface).1 = Except.error e ∧
      Ev.request Endpoint.dhcpSetConfig ∉ (configTail c iface).2) := by
  have hL : withRetriesTr (loginFn c.login) 10 2000
      "получить cookie сессии AdGuardHome" =
      (Except.ok cookie, [Ev.call, Ev.request Endpoint.login]) :=
    withRetriesTr_firstOk (loginFn c.login) 10 2000 _ cookie
      [Ev.request Endpoint.login] (by omega) (by simp [loginFn, hlogin])
  constructor
  · intro status body hI
    have hFI : fetchDhcpInterfaces c.interfaces =
        (Except.ok (),
          [Ev.log "Проверка интерфейсов", Ev.request Endpoint.dhcpInterfaces,
           Ev.log ("Статус HTTP: " ++ toString status),
           Ev.log ("Ответ DHCP интерфейсов: " ++ body)]) := by
      rw [hI]
      rfl
    refine ⟨?_, ?_, ?_⟩
    · simp only [configTail, hL, hFI]
      simp only [List.mem_append]
      exact Or.inr (enableDhcp_first_request iface c.dhcp)
    · simp only [configTail, hL, hFI]
      simp
    · simp only [configTail, hL, hFI]
  · intro e hI
    have hFI : fetchDhcpInterfaces c.interfaces =
        (Except.error e,
          [Ev.log "Проверка интерфейсов", Ev.request Endpoint.dhcpInterfaces]) := by
      rw [hI]
      rfl
    constructor
    · simp only [configTail, hL, hFI]
    · simp only [configTail, hL, hFI]
      simp

/-- Witness for the amended C8: a cycle whose interfaces GET answers
HTTP 500 still reaches DHCP activation; one whose GET throws aborts. -/
theorem read_interfaces_nonfatal_amended_witness :
    Ev.request Endpoint.dhcpSetConfig ∈
      (configTail
        { configure := fun _ => Except.ok ⟨200, "ok"⟩,
          login := fun _ => Except.ok (some "agh_session=x"),
          interfaces := Except.ok ⟨500, "oops"⟩,
          dhcp := fun _ => Except.ok ⟨200, ""⟩ } "br0").2 ∧
    (configTail
      { configure := fun _ => Except.ok ⟨200, "ok"⟩,
        login := fun _ => Except.ok (some "agh_session=x"),
        interfaces := Except.error "TypeError: fetch failed",
        dhcp := fun _ => Except.ok ⟨200, ""⟩ } "br0").1 =
      Except.error "TypeError: fetch failed" :=
  ⟨((read_interfaces_nonfatal_amended
      { configure := fun _ => Except.ok ⟨200, "ok"⟩,
        login := fun _ => Except.ok (some "agh_session=x"),
        interfaces := Except.ok ⟨500, "oops"⟩,
        dhcp := fun _ => Except.ok ⟨200, ""⟩ } "br0" "agh_session=x" rfl).1
      500 "oops" rfl).1,
   ((read_interfaces_nonfatal_amended
      { configure := fun _ => Except.ok ⟨200, "ok"⟩,
        login := fun _ => Except.ok (some "agh_session=x"),
        interfaces := Except.error "TypeError: fetch failed",
        dhcp := fun _ => Except.ok ⟨200, ""⟩ } "br0" "agh_session=x" rfl).2
      "TypeError: fetch failed" rfl).1⟩

/-- Claim C6: when spawning fails, `runCommand` rethrows the spawn error if
`allowFail` is false, and logs it and returns an empty result if
`allowFail` is true (no process ran, so no output was captured); the same
tolerate/fatal split applies to a non-zero (or `null`) exit status. -/
theorem runCommand_tolerate_fatal_split (cmd : String) (args : List String)
    (capture : Bool) (r : SpawnResult) :
    (∀ e, r.error = some e → (runCommand cmd args false capture r).1 = Except.error e) ∧
    (∀ e, r.error = some e → r.stdout = none →
      (runCommand cmd args true capture r).1 = Except.ok "" ∧
      Ev.log ("⚠️  Ошибка выполнения " ++ prettyCommand cmd args ++ ": " ++ e)
        ∈ (runCommand cmd args true capture r).2) ∧
    (r.error = none → r.status ≠ some 0 →
      (runCommand cmd args false capture r).1 =
        Except.error ("Команда завершилась с кодом " ++ statusText r.status
          ++ ": " ++ prettyCommand cmd args)) ∧
    (r.error = none → r.status ≠ some 0 →
      ∃ s, (runCommand cmd args true capture r).1 = Except.ok s ∧
        Ev.log ("⚠️  Команда завершилась с кодом " ++ statusText r.status)
          ∈ (runCommand cmd args true capture r).2) := by
  refine ⟨?_, ?_, ?_, ?_⟩
  · intro e he
    simp [runCommand, he]
  · intro e he hout
    refine ⟨?_, ?_⟩ <;> simp [runCommand, he, hout]
  · intro he hs
    have hb : (r.status != some 0) = true := by
      simp [bne_iff_ne]
      exact hs
    simp [runCommand, he, hb]
  · intro he hs
    have hb : (r.status != some 0) = true := by
      simp [bne_iff_ne]
      exact hs
    cases capture with
    | false => exact ⟨"", by simp [runCommand, he, hb]⟩
    | true => exact ⟨r.stdout.getD "", by simp [runCommand, he, hb]⟩

/-- Witness for C6: a spawn failure (ENOENT, nothing captured) and a
non-zero exit with status 2. -/
theorem runCommand_tolerate_fatal_split_witness :
    (runCommand "ip" ["link"] false false ⟨some "spawn ip ENOENT", none, none⟩).1 =
      Except.error "spawn ip ENOENT" ∧
    (runCommand "ip" ["link"] true false ⟨some "spawn ip ENOENT", none, none⟩).1 =
      Except.ok "" ∧
    (runCommand "ip" ["link"] false false ⟨none, some 2, none⟩).1 =
      Except.error ("Команда завершилась с кодом " ++ statusText (some 2)
        ++ ": " ++ prettyCommand "ip" ["link"]) :=
  ⟨(runCommand_tolerate_fatal_split "ip" ["link"] false
      ⟨some "spawn ip ENOENT", none, none⟩).1 "spawn ip ENOENT" rfl,
   ((runCommand_tolerate_fatal_split "ip" ["link"] false
      ⟨some "spawn ip ENOENT", none, none⟩).2.1 "spawn ip ENOENT" rfl rfl).1,
   (runCommand_tolerate_fatal_split "ip" ["link"] false
      ⟨none, some 2, none⟩).2.2.1 rfl (by decide)⟩

/-- Claim C7: every `runCommand` invocation writes the rendered command
line as its first log line, before any result-dependent event; a
tolerated spawn failure and a tolerated non-zero exit each produce exactly
one further log line (the failure is logged exactly once). -/
theorem runCommand_single_pre_log (cmd : String) (args : List String)
    (allowFail capture : Bool) (r : SpawnResult) :
    (runCommand cmd args allowFail capture r).2.take 1 =
      [Ev.log (prettyCommand cmd args)] ∧
    (∀ e, r.error = some e →
      (runCommand cmd args true capture r).2 =
        [Ev.log (prettyCommand cmd args),
         Ev.log ("⚠️  Ошибка выполнения " ++ prettyCommand cmd args ++ ": " ++ e)]) ∧
    (r.error = none → r.status ≠ some 0 →
      (runCommand cmd args true capture r).2 =
        [Ev.log (prettyCommand cmd args),
         Ev.log ("⚠️  Команда завершилась с кодом " ++ statusText r.status)]) := by
  refine ⟨?_, ?_, ?_⟩
  · cases he : r.error with
    | some e => cases allowFail <;> simp [runCommand, he]
    | none =>
      cases hz : (r.status != some 0) with
      | true => cases allowFail <;> simp [runCommand, he, hz]
      | false => cases allowFail <;> simp [runCommand, he, hz]
  · intro e he
    simp [runCommand, he]
  · intro he hs
    have hb : (r.status != some 0) = true := by
      simp [bne_iff_ne]
      exact hs
    simp [runCommand, he, hb]

/-- Witness for C7: the pre-log shape and both tolerated-failure traces at
concrete spawn results. -/
theorem runCommand_single_pre_log_witness :
    (runCommand "brctl" ["addbr", "br0"] true false
      ⟨none, some 1, none⟩).2.take 1 =
      [Ev.log (prettyCommand "brctl" ["addbr", "br0"])] ∧
    (runCommand "brctl" ["addbr", "br0"] true false
      ⟨some "spawn brctl ENOENT", none, none⟩).2 =
      [Ev.log (prettyCommand "brctl" ["addbr", "br0"]),
       Ev.log ("⚠️  Ошибка выполнения " ++ prettyCommand "brctl" ["addbr", "br0"]
         ++ ": " ++ "spawn brctl ENOENT")] ∧
    (runCommand "brctl" ["addbr", "br0"] true false ⟨none, some 1, none⟩).2 =
      [Ev.log (prettyCommand "brctl" ["addbr", "br0"]),
       Ev.log ("⚠️  Команда завершилась с кодом " ++ statusText (some 1))] :=
  ⟨(runCommand_single_pre_log "brctl" ["addbr", "br0"] true false
      ⟨none, some 1, none⟩).1,
   (runCommand_single_pre_log "brctl" ["addbr", "br0"] true false
      ⟨some "spawn brctl ENOENT", none, none⟩).2.1 "spawn brctl ENOENT" rfl,
   (runCommand_single_pre_log "brctl" ["addbr", "br0"] true false
      ⟨none, some 1, none⟩).2.2 rfl (by decide)⟩

/-- Claim C1: every pipeline failure (spawn failure, intolerant non-zero
exit, retries exhausted, poll timeout, DHCP activation failure, missing
guest image) is caught by `main`, which logs it and enters the `keepAlive`
containment state; every tick of that idle loop emits the liveness line
and performs no process exit; and the only process exit the orchestrator
ever performs is with the hypervisor child's exit code (`code ?? 0`) from
the hypervisor-exit state. -/
theorem supervisor_contains_all_failures :
    (∀ e : PipelineError,
      (main (Except.error e)).1 = MainOutcome.contained ∧
      Ev.log ("[!] Ошибка: " ++ describeError e ++ ". Оставляю контейнер живым.")
        ∈ (main (Except.error e)).2) ∧
    (∀ k, (keepAliveTick k).1 = none ∧
      (keepAliveTick k).2 = Ev.log "Контейнер остаётся активным после ошибки.") ∧
    (∀ st child c, processExit st child = some c →
      st = MainOutcome.awaitingHypervisor ∧ c = child.getD 0) := by
  refine ⟨?_, ?_, ?_⟩
  · intro e
    exact ⟨rfl, by simp [main]⟩
  · intro k
    exact ⟨rfl, rfl⟩
  · intro st child c h
    cases st with
    | awaitingHypervisor =>
      simp [processExit] at h
      exact ⟨rfl, h.symm⟩
    | completed => simp [processExit] at h
    | contained => simp [processExit] at h

/-- Witness for C1: the exit-only-from-hypervisor clause applied at the
hypervisor state with child code 3. -/
theorem supervisor_contains_all_failures_witness :
    MainOutcome.awaitingHypervisor = MainOutcome.awaitingHypervisor ∧
    (3 : Int) = (some (3 : Int)).getD 0 :=
  supervisor_contains_all_failures.2.2 MainOutcome.awaitingHypervisor (some 3) 3 rfl

/-- Claim C10: when the hypervisor child exits with a `null` exit code, the
handler logs the exit (rendering the code as 0) and the orchestrator
terminates with process exit code 0. -/
theorem qemu_null_exit_code_exits_zero :
    qemuExitHandler none = (0, [Ev.log "QEMU завершился с кодом 0"]) := by
  rfl

/-- Counterexample to C5: the boot-artifact builder, given an empty command
list, does NOT fall back to the default self-check command list — its
fallback is the single readiness `echo` command. -/
theorem cloudinit_empty_fallback_counterexample :
    commandLinesOf [] ≠ defaultCloudInitCommands "test.xyz" := by
  intro h
  have hlen := congrArg List.length h
  simp [commandLinesOf, defaultCloudInitCommands] at hlen

/-- Claim C5 (amended): given an empty command list the builder falls back
to the single command `echo "AdGuardHome test VM is ready"` in the
generated document; the documented default self-check list is the
configuration-level fallback used when no commands are supplied via the
environment, and — being non-empty — it passes through the builder
unchanged. -/
theorem cloudinit_empty_fallback_amended :
    commandLinesOf [] = [fallbackCommand] ∧
    (∀ h, cloudInitCommandsOf none h = defaultCloudInitCommands h) ∧
    (∀ h, commandLinesOf (defaultCloudInitCommands h) = defaultCloudInitCommands h) ∧
    renderedCommandsOf [] =
      "  - [\"/bin/sh\", \"-c\", \"echo \\\"AdGuardHome test VM is ready\\\"\"]" := by
  refine ⟨rfl, fun h => rfl, fun h => ?_, ?_⟩
  · simp [commandLinesOf, defaultCloudInitCommands]
  · rfl

end Agh
